import Mathlib

/-!
Verification of the FireLink real-time proximity fan-out and signaling core.

The development shallowly embeds the server modules:
* `server/haversine.ts` — great-circle distance (JS `number` modelled as `ℝ`);
* the `/ws` route module — connected-client registry, fan-out helpers;
* `server/webrtc.ts` — the WebRTC signaling broker (connections, rooms,
  outbound messages modelled as an append-only outbox);
* `MemStorage.getPushSubscriptionsNearLocation` from the storage module.

JS `Map` objects are modelled as association lists in insertion order
(`Map.set` replaces in place or appends; `Map.delete` removes; `forEach`
iterates in insertion order), and JS `Set` objects as duplicate-free lists in
insertion order.  JS numeric truthiness (`x && y`) is modelled explicitly:
an optional number is truthy when it is present and nonzero.
-/

namespace FireLink

/-! ### Geo-distance utility, from `server/haversine.ts` -/

/-- `toRadians` from `server/haversine.ts`: `degrees * (Math.PI / 180)`. -/
noncomputable def toRadians (degrees : ℝ) : ℝ :=
  degrees * (Real.pi / 180)

/-- Model of the JS builtin `Math.atan2 y x` on real inputs (the IEEE special
cases for signed zero and infinities do not arise over `ℝ`). -/
noncomputable def atan2 (y x : ℝ) : ℝ :=
  if 0 < x then Real.arctan (y / x)
  else if x < 0 then
    (if 0 ≤ y then Real.arctan (y / x) + Real.pi else Real.arctan (y / x) - Real.pi)
  else
    (if 0 < y then Real.pi / 2 else if y < 0 then -(Real.pi / 2) else 0)

/-- The intermediate value `a` computed by `calculateDistance` in
`server/haversine.ts`:
`Math.sin(dLat/2) * Math.sin(dLat/2) + Math.cos(toRadians(lat1)) * Math.cos(toRadians(lat2)) * Math.sin(dLng/2) * Math.sin(dLng/2)`
with `dLat = toRadians(lat2 - lat1)` and `dLng = toRadians(lng2 - lng1)`. -/
noncomputable def haversineA (lat1 lng1 lat2 lng2 : ℝ) : ℝ :=
  Real.sin (toRadians (lat2 - lat1) / 2) * Real.sin (toRadians (lat2 - lat1) / 2) +
    Real.cos (toRadians lat1) * Real.cos (toRadians lat2) *
      (Real.sin (toRadians (lng2 - lng1) / 2) * Real.sin (toRadians (lng2 - lng1) / 2))

/-- `calculateDistance` from `server/haversine.ts`: `R * c` with `R = 6371` and
`c = 2 * Math.atan2(Math.sqrt(a), Math.sqrt(1 - a))`. -/
noncomputable def calculateDistance (lat1 lng1 lat2 lng2 : ℝ) : ℝ :=
  6371 * (2 * atan2 (Real.sqrt (haversineA lat1 lng1 lat2 lng2))
    (Real.sqrt (1 - haversineA lat1 lng1 lat2 lng2)))

/-- The haversine intermediate exactly as the specification words it:
`sin(dLat/2)^2 + cos(lat1)*cos(lat2)*sin(dLng/2)^2` in radians. -/
noncomputable def haversineX (lat1 lng1 lat2 lng2 : ℝ) : ℝ :=
  Real.sin (toRadians (lat2 - lat1) / 2) ^ 2 +
    Real.cos (toRadians lat1) * Real.cos (toRadians lat2) *
      Real.sin (toRadians (lng2 - lng1) / 2) ^ 2

/-- The distance formula exactly as the specification words it:
`2 * atan2 (sqrt x) (sqrt (1 - x)) * 6371`. -/
noncomputable def distanceKmSpec (lat1 lng1 lat2 lng2 : ℝ) : ℝ :=
  2 * atan2 (Real.sqrt (haversineX lat1 lng1 lat2 lng2))
    (Real.sqrt (1 - haversineX lat1 lng1 lat2 lng2)) * 6371

theorem haversineA_eq_haversineX (lat1 lng1 lat2 lng2 : ℝ) :
    haversineA lat1 lng1 lat2 lng2 = haversineX lat1 lng1 lat2 lng2 := by
  unfold haversineA haversineX
  ring

theorem haversineA_comm (lat1 lng1 lat2 lng2 : ℝ) :
    haversineA lat1 lng1 lat2 lng2 = haversineA lat2 lng2 lat1 lng1 := by
  unfold haversineA
  have hlat : toRadians (lat1 - lat2) / 2 = -(toRadians (lat2 - lat1) / 2) := by
    unfold toRadians; ring
  have hlng : toRadians (lng1 - lng2) / 2 = -(toRadians (lng2 - lng1) / 2) := by
    unfold toRadians; ring
  rw [hlat, hlng, Real.sin_neg, Real.sin_neg]
  ring

theorem haversineA_self (lat lng : ℝ) : haversineA lat lng lat lng = 0 := by
  unfold haversineA
  have h0 : toRadians (lat - lat) / 2 = 0 := by unfold toRadians; ring
  have h1 : toRadians (lng - lng) / 2 = 0 := by unfold toRadians; ring
  rw [h0, h1, Real.sin_zero]
  ring

theorem atan2_nonneg {y x : ℝ} (hy : 0 ≤ y) (hx : 0 ≤ x) : 0 ≤ atan2 y x := by
  unfold atan2
  by_cases h1 : 0 < x
  · simp only [if_pos h1]
    rw [← Real.arctan_zero]
    exact Real.arctan_strictMono.monotone (div_nonneg hy (le_of_lt h1))
  · simp only [if_neg h1]
    have h2 : ¬ x < 0 := by linarith
    simp only [if_neg h2]
    by_cases h3 : 0 < y
    · simp only [if_pos h3]
      linarith [Real.pi_pos]
    · simp only [if_neg h3]
      have h4 : ¬ y < 0 := by linarith
      simp only [if_neg h4]
      exact le_refl 0

theorem atan2_zero_one : atan2 0 1 = 0 := by
  unfold atan2
  rw [if_pos one_pos]
  simp [Real.arctan_zero]

/-- Helper: the source distance function vanishes on identical coordinates. -/
theorem calculateDistance_self (lat lng : ℝ) : calculateDistance lat lng lat lng = 0 := by
  unfold calculateDistance
  rw [haversineA_self]
  norm_num [atan2_zero_one]

/-- Helper: the source distance function is symmetric in its two coordinates. -/
theorem calculateDistance_comm (lat1 lng1 lat2 lng2 : ℝ) :
    calculateDistance lat1 lng1 lat2 lng2 = calculateDistance lat2 lng2 lat1 lng1 := by
  unfold calculateDistance
  rw [haversineA_comm lat2 lng2 lat1 lng1]

/-- Helper: the source distance function is non-negative. -/
theorem calculateDistance_nonneg (lat1 lng1 lat2 lng2 : ℝ) :
    0 ≤ calculateDistance lat1 lng1 lat2 lng2 := by
  unfold calculateDistance
  have h := atan2_nonneg (Real.sqrt_nonneg (haversineA lat1 lng1 lat2 lng2))
    (Real.sqrt_nonneg (1 - haversineA lat1 lng1 lat2 lng2))
  linarith

/-! ### Association lists, the model of a JS `Map` in insertion order -/

/-- `Map.get`: the value bound to the first (and, for a JS `Map`, only)
occurrence of the key. -/
def alGet {α : Type} (l : List (String × α)) (k : String) : Option α :=
  match l with
  | [] => none
  | (k', v) :: t => if k' = k then some v else alGet t k

/-- `Map.set`: replace the binding in place if the key is present, otherwise
append it (JS `Map` insertion-order semantics). -/
def alSet {α : Type} (l : List (String × α)) (k : String) (v : α) : List (String × α) :=
  match l with
  | [] => [(k, v)]
  | (k', v') :: t => if k' = k then (k', v) :: t else (k', v') :: alSet t k v

/-- `Map.delete`: remove the binding of the key, keeping the rest in order. -/
def alDel {α : Type} (l : List (String × α)) (k : String) : List (String × α) :=
  match l with
  | [] => []
  | (k', v') :: t => if k' = k then t else (k', v') :: alDel t k

/-- The keys of a JS `Map` are pairwise distinct. -/
def keysNodup {α : Type} (l : List (String × α)) : Prop :=
  (l.map Prod.fst).Nodup

instance {α : Type} (l : List (String × α)) : Decidable (keysNodup l) :=
  inferInstanceAs (Decidable (l.map Prod.fst).Nodup)

theorem alGet_alSet_self {α : Type} (l : List (String × α)) (k : String) (v : α) :
    alGet (alSet l k v) k = some v := by
  induction l with
  | nil => simp [alGet, alSet]
  | cons p t ih =>
    obtain ⟨k', v'⟩ := p
    by_cases h : k' = k
    · simp [alGet, alSet, h]
    · simp [alGet, alSet, h, ih]

theorem alGet_alSet_ne {α : Type} (l : List (String × α)) (k k' : String) (v : α)
    (h : k ≠ k') : alGet (alSet l k v) k' = alGet l k' := by
  induction l with
  | nil => simp [alGet, alSet, h]
  | cons p t ih =>
    obtain ⟨k0, v0⟩ := p
    by_cases h0 : k0 = k
    · subst h0
      simp [alGet, alSet, h]
    · simp only [alSet, if_neg h0, alGet]
      by_cases h1 : k0 = k'
      · simp [h1]
      · simp [h1, ih]

theorem alGet_alDel_ne {α : Type} (l : List (String × α)) (k k' : String)
    (h : k ≠ k') : alGet (alDel l k) k' = alGet l k' := by
  induction l with
  | nil => simp [alGet, alDel]
  | cons p t ih =>
    obtain ⟨k0, v0⟩ := p
    by_cases h0 : k0 = k
    · subst h0
      simp [alDel, alGet, h]
    · simp only [alDel, if_neg h0, alGet]
      by_cases h1 : k0 = k'
      · simp [h1]
      · simp [h1, ih]

theorem mem_alDel {α : Type} {l : List (String × α)} {k : String} {p : String × α}
    (h : p ∈ alDel l k) : p ∈ l := by
  induction l with
  | nil => simp [alDel] at h
  | cons q t ih =>
    obtain ⟨k0, v0⟩ := q
    by_cases h0 : k0 = k
    · simp only [alDel, if_pos h0] at h
      exact List.mem_cons_of_mem _ h
    · simp only [alDel, if_neg h0, List.mem_cons] at h
      rcases h with h | h
      · exact List.mem_cons.2 (Or.inl h)
      · exact List.mem_cons_of_mem _ (ih h)

theorem mem_alDel_of_nodup {α : Type} {l : List (String × α)} {k : String} {p : String × α}
    (hn : keysNodup l) (h : p ∈ alDel l k) : p ∈ l ∧ p.1 ≠ k := by
  induction l with
  | nil => simp [alDel] at h
  | cons q t ih =>
    obtain ⟨k0, v0⟩ := q
    simp only [keysNodup, List.map_cons, List.nodup_cons] at hn
    by_cases h0 : k0 = k
    · subst h0
      simp only [alDel, if_pos rfl] at h
      refine ⟨List.mem_cons_of_mem _ h, ?_⟩
      intro hk
      exact hn.1 (List.mem_map.2 ⟨p, h, hk⟩)
    · simp only [alDel, if_neg h0, List.mem_cons] at h
      rcases h with h | h
      · subst h
        exact ⟨List.mem_cons.2 (Or.inl rfl), h0⟩
      · obtain ⟨h1, h2⟩ := ih hn.2 h
        exact ⟨List.mem_cons_of_mem _ h1, h2⟩

theorem mem_alSet_of_nodup {α : Type} {l : List (String × α)} {k : String} {v : α}
    {p : String × α} (hn : keysNodup l) (h : p ∈ alSet l k v) :
    p = (k, v) ∨ (p ∈ l ∧ p.1 ≠ k) := by
  induction l with
  | nil =>
    simp only [alSet, List.mem_singleton] at h
    exact Or.inl h
  | cons q t ih =>
    obtain ⟨k0, v0⟩ := q
    simp only [keysNodup, List.map_cons, List.nodup_cons] at hn
    by_cases h0 : k0 = k
    · subst h0
      simp [alSet] at h
      rcases h with h | h
      · exact Or.inl (by simp [h])
      · refine Or.inr ⟨List.mem_cons_of_mem _ h, ?_⟩
        intro hk
        exact hn.1 (List.mem_map.2 ⟨p, h, hk⟩)
    · simp [alSet, h0] at h
      rcases h with h | h
      · exact Or.inr ⟨List.mem_cons.2 (Or.inl (by simp [h])), by simp [h, h0]⟩
      · rcases ih hn.2 h with h1 | ⟨h1, h2⟩
        · exact Or.inl h1
        · exact Or.inr ⟨List.mem_cons_of_mem _ h1, h2⟩

theorem alGet_of_mem_nodup {α : Type} {l : List (String × α)} {p : String × α}
    (hn : keysNodup l) (h : p ∈ l) : alGet l p.1 = some p.2 := by
  induction l with
  | nil => simp at h
  | cons q t ih =>
    obtain ⟨k0, v0⟩ := q
    simp only [keysNodup, List.map_cons, List.nodup_cons] at hn
    rcases List.mem_cons.1 h with h | h
    · subst h
      simp [alGet]
    · have hk : k0 ≠ p.1 := by
        intro hk
        exact hn.1 (List.mem_map.2 ⟨p, h, hk.symm⟩)
      simp only [alGet, if_neg hk]
      exact ih hn.2 h

theorem alGet_ne_none_of_mem {α : Type} {l : List (String × α)} {p : String × α}
    (h : p ∈ l) : alGet l p.1 ≠ none := by
  induction l with
  | nil => simp at h
  | cons q t ih =>
    obtain ⟨k0, v0⟩ := q
    rcases List.mem_cons.1 h with h | h
    · subst h
      simp [alGet]
    · simp only [alGet]
      by_cases h0 : k0 = p.1
      · simp [h0]
      · simp only [if_neg h0]
        exact ih h

theorem keysNodup_alSet {α : Type} {l : List (String × α)} (k : String) (v : α)
    (hn : keysNodup l) : keysNodup (alSet l k v) := by
  induction l with
  | nil => simp [alSet, keysNodup]
  | cons q t ih =>
    obtain ⟨k0, v0⟩ := q
    simp only [keysNodup, List.map_cons, List.nodup_cons] at hn
    by_cases h0 : k0 = k
    · simpa [alSet, h0, keysNodup] using hn
    · have ht := ih hn.2
      simp only [alSet, if_neg h0, keysNodup, List.map_cons, List.nodup_cons]
      refine ⟨?_, ht⟩
      intro hmem
      rcases List.mem_map.1 hmem with ⟨p, hp, hfst⟩
      rcases mem_alSet_of_nodup hn.2 hp with h1 | ⟨h1, _⟩
      · subst h1
        exact h0 hfst.symm
      · exact hn.1 (List.mem_map.2 ⟨p, h1, hfst⟩)

theorem keysNodup_alDel {α : Type} {l : List (String × α)} (k : String)
    (hn : keysNodup l) : keysNodup (alDel l k) := by
  induction l with
  | nil => simp [alDel, keysNodup]
  | cons q t ih =>
    obtain ⟨k0, v0⟩ := q
    simp only [keysNodup, List.map_cons, List.nodup_cons] at hn
    by_cases h0 : k0 = k
    · simpa [alDel, h0, keysNodup] using hn.2
    · have ht := ih hn.2
      simp only [alDel, if_neg h0, keysNodup, List.map_cons, List.nodup_cons]
      refine ⟨?_, ht⟩
      intro hmem
      rcases List.mem_map.1 hmem with ⟨p, hp, hfst⟩
      exact hn.1 (List.mem_map.2 ⟨p, mem_alDel hp, hfst⟩)

/-! ### The `/ws` route module: connected-client registry and fan-out -/

/-- An entry of `connectedClients` in the routes module:
`{ socket, userId?, role?, lat?, lng? }`.  The transport handle is modelled by
its observable state `socketOpen` (`socket.readyState === WebSocket.OPEN`). -/
structure WsClient where
  socketOpen : Bool
  userId : Option String
  role : Option String
  lat : Option ℝ
  lng : Option ℝ

/-- State of the routes module: the `connectedClients` map plus an append-only
log of the frames written to sockets (recipient id, message). -/
structure WsState where
  connectedClients : List (String × WsClient)
  outbox : List (String × String)

/-- `sendToClient` from the routes module: look the client up and write only
when the socket is open; otherwise do nothing. -/
def sendToClient (s : WsState) (clientId : String) (message : String) : WsState :=
  match alGet s.connectedClients clientId with
  | some client =>
    if client.socketOpen then
      { s with outbox := s.outbox ++ [(clientId, message)] }
    else s
  | none => s

/-- `broadcastToAll` from the routes module: `connectedClients.forEach` calling
`sendToClient` on every entry's key. -/
def broadcastToAll (s : WsState) (message : String) : WsState :=
  s.connectedClients.foldl (fun acc p => sendToClient acc p.1 message) s

/-- `notifyAgents` from the routes module: send only to clients whose `role`
field is `"agent"`. -/
def notifyAgents (s : WsState) (message : String) : WsState :=
  s.connectedClients.foldl
    (fun acc p => if p.2.role = some "agent" then sendToClient acc p.1 message else acc) s

/-- An element of the array built by `findClientsWithinRadius`. -/
structure NearbyClient where
  id : String
  lat : ℝ
  lng : ℝ

open Classical in
/-- `findClientsWithinRadius` from the routes module.  The guard
`client.lat && client.lng && client.role === "community"` uses JS numeric
truthiness: a missing coordinate and the coordinate `0` both fail it. -/
noncomputable def findClientsWithinRadius (lat lng radiusKm : ℝ) :
    List (String × WsClient) → List NearbyClient
  | [] => []
  | (clientId, client) :: rest =>
    let tail := findClientsWithinRadius lat lng radiusKm rest
    match client.lat, client.lng with
    | some la, some ln =>
      if la ≠ 0 ∧ ln ≠ 0 ∧ client.role = some "community" then
        if calculateDistance lat lng la ln ≤ radiusKm then
          ⟨clientId, la, ln⟩ :: tail
        else tail
      else tail
    | some _, none => tail
    | none, _ => tail

/-- A row of the `pushSubscriptions` store (`shared/schema.ts`): nullable
`lat`/`lng` and a non-null boolean `isActive`. -/
structure PushSub where
  id : String
  lat : Option ℝ
  lng : Option ℝ
  isActive : Bool

open Classical in
/-- `MemStorage.getPushSubscriptionsNearLocation`: filter by the JS guard
`!sub.lat || !sub.lng || !sub.isActive` (numeric truthiness again) and then by
`distance <= radiusKm`. -/
noncomputable def getPushSubscriptionsNearLocation (lat lng radiusKm : ℝ) :
    List PushSub → List PushSub
  | [] => []
  | sub :: rest =>
    let tail := getPushSubscriptionsNearLocation lat lng radiusKm rest
    match sub.lat, sub.lng with
    | some la, some ln =>
      if la ≠ 0 ∧ ln ≠ 0 ∧ sub.isActive then
        if calculateDistance lat lng la ln ≤ radiusKm then sub :: tail else tail
      else tail
    | some _, none => tail
    | none, _ => tail

/-! ### The WebRTC signaling broker, from `server/webrtc.ts` -/

/-- A `WebRTCConnection` entry: `{ id, socket, role, alertId?, userId?,
isConnected }`.  The socket is modelled by its observable open state, the id is
the map key. -/
structure ServerConn where
  socketOpen : Bool
  role : String
  alertId : Option String
  userId : Option String
deriving DecidableEq, Repr

/-- Outbound frames written by the broker (`sendMessage` call sites). -/
inductive SigMsg where
  | connectionEstablished (connectionId : String)
  | userJoined (connectionId role : String) (userId : Option String)
  | agentAvailable (agentId : String)
  | offerMsg (data fromId : String)
  | answerMsg (data fromId : String)
  | iceMsg (data fromId : String)
  | userLeft (connectionId role : String)
deriving DecidableEq, Repr

/-- State of the `WebRTCSignalingServer`: the `connections` map, the
`activeRooms` map (alert id to the set of joined connection ids, in insertion
order) and an append-only log of delivered frames. -/
structure BrokerState where
  connections : List (String × ServerConn)
  activeRooms : List (String × List String)
  outbox : List (String × SigMsg)
deriving DecidableEq, Repr

/-- The state of a freshly constructed signaling server. -/
def initState : BrokerState :=
  { connections := [], activeRooms := [], outbox := [] }

/-- `sendMessage`: deliver only when the connection exists and its socket is
open. -/
def sendMessage (s : BrokerState) (connectionId : String) (msg : SigMsg) : BrokerState :=
  match alGet s.connections connectionId with
  | some conn =>
    if conn.socketOpen then
      { s with outbox := s.outbox ++ [(connectionId, msg)] }
    else s
  | none => s

/-- `broadcastToRoom`: iterate the room's member set in insertion order,
skipping `excludeId`. -/
def broadcastToRoom (s : BrokerState) (alertId : String) (msg : SigMsg)
    (excludeId : String) : BrokerState :=
  match alGet s.activeRooms alertId with
  | none => s
  | some ms =>
    ms.foldl (fun acc cid => if cid = excludeId then acc else sendMessage acc cid msg) s

/-- `Set.add` on a JS `Set` modelled as a duplicate-free insertion-order
list. -/
def setAdd (l : List String) (x : String) : List String :=
  if x ∈ l then l else l ++ [x]

/-- The predicate of `handleJoinCall`'s agent branch:
`this.connections.get(id)?.role === "user"`. -/
def isUserRole (s : BrokerState) (cid : String) : Bool :=
  match alGet s.connections cid with
  | some c => c.role = "user"
  | none => false

/-- `handleJoinCall`: record `alertId`/`role`/`userId` on the connection, add
it to the room (creating the room on first join), broadcast `user-joined` to
the other members, and, when an agent joins, notify the first waiting user
with `agent-available`.  The JS guard `if (userConnection)` is string
truthiness: a found user whose connection id is the empty string is not
notified. -/
def handleJoinCall (s : BrokerState) (connectionId alertId role : String)
    (userId : Option String) : BrokerState :=
  match alGet s.connections connectionId with
  | none => s
  | some conn =>
    let conn' : ServerConn :=
      { conn with alertId := some alertId, role := role, userId := userId }
    let rooms' :=
      match alGet s.activeRooms alertId with
      | none => alSet s.activeRooms alertId (setAdd [] connectionId)
      | some ms => alSet s.activeRooms alertId (setAdd ms connectionId)
    let s1 : BrokerState :=
      { connections := alSet s.connections connectionId conn',
        activeRooms := rooms', outbox := s.outbox }
    let s2 := broadcastToRoom s1 alertId
      (SigMsg.userJoined connectionId role userId) connectionId
    if role = "agent" then
      match alGet s2.activeRooms alertId with
      | none => s2
      | some room =>
        match room.find? (fun m => isUserRole s2 m) with
        | some userConnection =>
          if userConnection = "" then s2
          else sendMessage s2 userConnection (SigMsg.agentAvailable connectionId)
        | none => s2
    else s2

/-- `handleOffer`: relay to `message.to` when that contains a live connection
id (the JS guard `to && this.connections.has(to)` also rejects the empty
string). -/
def handleOffer (s : BrokerState) (fromId : String) (toId : Option String)
    (data : String) : BrokerState :=
  match toId with
  | none => s
  | some t =>
    if t ≠ "" ∧ (alGet s.connections t).isSome then
      sendMessage s t (SigMsg.offerMsg data fromId)
    else s

/-- `handleAnswer`: same relay shape as `handleOffer`. -/
def handleAnswer (s : BrokerState) (fromId : String) (toId : Option String)
    (data : String) : BrokerState :=
  match toId with
  | none => s
  | some t =>
    if t ≠ "" ∧ (alGet s.connections t).isSome then
      sendMessage s t (SigMsg.answerMsg data fromId)
    else s

/-- `handleIceCandidate`: same relay shape as `handleOffer`. -/
def handleIceCandidate (s : BrokerState) (fromId : String) (toId : Option String)
    (data : String) : BrokerState :=
  match toId with
  | none => s
  | some t =>
    if t ≠ "" ∧ (alGet s.connections t).isSome then
      sendMessage s t (SigMsg.iceMsg data fromId)
    else s

/-- `handleLeaveCall`: remove the connection from the room recorded in its
`alertId` field (which is never cleared), delete the room if it became empty,
then broadcast `user-left` to whoever is still in that room.  The JS guard
`if (!connection || !connection.alertId) return` uses string truthiness, so an
unset *or empty-string* `alertId` makes leave a no-op. -/
def handleLeaveCall (s : BrokerState) (connectionId : String) : BrokerState :=
  match alGet s.connections connectionId with
  | none => s
  | some conn =>
    match conn.alertId with
    | none => s
    | some alertId =>
      if alertId = "" then s
      else
        let s1 : BrokerState :=
          match alGet s.activeRooms alertId with
          | none => s
          | some ms =>
            let ms' := ms.erase connectionId
            if ms' = [] then { s with activeRooms := alDel s.activeRooms alertId }
            else { s with activeRooms := alSet s.activeRooms alertId ms' }
        broadcastToRoom s1 alertId (SigMsg.userLeft connectionId conn.role) connectionId

/-- `handleConnectionClose`: run the implicit leave when the connection has a
recorded room, then delete the registry entry.  The JS guard
`if (connection.alertId)` is string truthiness: the implicit leave is skipped
when `alertId` is unset *or the empty string*. -/
def handleConnectionClose (s : BrokerState) (connectionId : String) : BrokerState :=
  match alGet s.connections connectionId with
  | none => s
  | some conn =>
    let s1 :=
      match conn.alertId with
      | some a => if a = "" then s else handleLeaveCall s connectionId
      | none => s
    { s1 with connections := alDel s1.connections connectionId }

/-- The `wss.on("connection")` handler: create the registry entry with default
role `"user"` and send `connection-established`. -/
def handleConnect (s : BrokerState) (connectionId : String) : BrokerState :=
  let connection : ServerConn :=
    { socketOpen := true, role := "user", alertId := none, userId := none }
  let s1 : BrokerState :=
    { s with connections := alSet s.connections connectionId connection }
  sendMessage s1 connectionId (SigMsg.connectionEstablished connectionId)

/-- The broker operations driven by transport events and decoded frames. -/
inductive Op where
  | connect (cid : String)
  | joinCall (cid alertId role : String) (userId : Option String)
  | offerOp (fromId : String) (toId : Option String) (data : String)
  | answerOp (fromId : String) (toId : Option String) (data : String)
  | iceOp (fromId : String) (toId : Option String) (data : String)
  | leaveOp (cid : String)
  | closeOp (cid : String)
deriving DecidableEq, Repr

/-- One step of the broker.  Frames from unknown connections are dropped by
`handleSignalingMessage`'s `if (!connection) return` guard. -/
def stepOp (s : BrokerState) : Op → BrokerState
  | Op.connect cid => handleConnect s cid
  | Op.joinCall cid a r u =>
    if (alGet s.connections cid).isSome then handleJoinCall s cid a r u else s
  | Op.offerOp f t d =>
    if (alGet s.connections f).isSome then handleOffer s f t d else s
  | Op.answerOp f t d =>
    if (alGet s.connections f).isSome then handleAnswer s f t d else s
  | Op.iceOp f t d =>
    if (alGet s.connections f).isSome then handleIceCandidate s f t d else s
  | Op.leaveOp cid =>
    if (alGet s.connections cid).isSome then handleLeaveCall s cid else s
  | Op.closeOp cid => handleConnectionClose s cid

/-- Run a sequence of operations from the freshly constructed server. -/
def runOps (ops : List Op) : BrokerState :=
  ops.foldl stepOp initState

/-! ### Basic broker lemmas -/

/-- Whether a connection id has a live entry with an open socket. -/
def isOpenIn (conns : List (String × ServerConn)) (cid : String) : Bool :=
  match alGet conns cid with
  | some c => c.socketOpen
  | none => false

theorem sendMessage_connections (s : BrokerState) (cid : String) (m : SigMsg) :
    (sendMessage s cid m).connections = s.connections := by
  unfold sendMessage
  cases alGet s.connections cid with
  | none => rfl
  | some c =>
    by_cases h : c.socketOpen <;> simp [h]

theorem sendMessage_activeRooms (s : BrokerState) (cid : String) (m : SigMsg) :
    (sendMessage s cid m).activeRooms = s.activeRooms := by
  unfold sendMessage
  cases alGet s.connections cid with
  | none => rfl
  | some c =>
    by_cases h : c.socketOpen <;> simp [h]

theorem sendMessage_outbox (s : BrokerState) (cid : String) (m : SigMsg) :
    (sendMessage s cid m).outbox =
      s.outbox ++ (if isOpenIn s.connections cid then [(cid, m)] else []) := by
  unfold sendMessage isOpenIn
  cases alGet s.connections cid with
  | none => simp
  | some c =>
    by_cases h : c.socketOpen <;> simp [h]

theorem foldlSend_connections (ms : List String) (s : BrokerState) (m : SigMsg)
    (ex : String) :
    ((ms.foldl (fun acc cid => if cid = ex then acc else sendMessage acc cid m) s)).connections
      = s.connections := by
  induction ms generalizing s with
  | nil => rfl
  | cons c t ih =>
    simp only [List.foldl_cons]
    rw [ih]
    by_cases h : c = ex
    · simp [h]
    · simp [h, sendMessage_connections]

theorem foldlSend_activeRooms (ms : List String) (s : BrokerState) (m : SigMsg)
    (ex : String) :
    ((ms.foldl (fun acc cid => if cid = ex then acc else sendMessage acc cid m) s)).activeRooms
      = s.activeRooms := by
  induction ms generalizing s with
  | nil => rfl
  | cons c t ih =>
    simp only [List.foldl_cons]
    rw [ih]
    by_cases h : c = ex
    · simp [h]
    · simp [h, sendMessage_activeRooms]

theorem foldlSend_outbox (ms : List String) (s : BrokerState) (m : SigMsg)
    (ex : String) :
    ((ms.foldl (fun acc cid => if cid = ex then acc else sendMessage acc cid m) s)).outbox
      = s.outbox ++
        (ms.filter (fun cid => !(cid == ex) && isOpenIn s.connections cid)).map
          (fun cid => (cid, m)) := by
  induction ms generalizing s with
  | nil => simp
  | cons c t ih =>
    simp only [List.foldl_cons, List.filter_cons]
    by_cases h : c = ex
    · subst h
      simp [ih]
    · have hbeq : (!(c == ex) && isOpenIn s.connections c) = isOpenIn s.connections c := by
        simp [h]
      rw [if_neg h, ih (sendMessage s c m), sendMessage_connections, sendMessage_outbox]
      simp only [hbeq]
      by_cases hop : isOpenIn s.connections c
      · simp [hop]
      · simp [hop]

theorem broadcastToRoom_connections (s : BrokerState) (a : String) (m : SigMsg)
    (ex : String) : (broadcastToRoom s a m ex).connections = s.connections := by
  unfold broadcastToRoom
  cases alGet s.activeRooms a with
  | none => rfl
  | some ms => exact foldlSend_connections ms s m ex

theorem broadcastToRoom_activeRooms (s : BrokerState) (a : String) (m : SigMsg)
    (ex : String) : (broadcastToRoom s a m ex).activeRooms = s.activeRooms := by
  unfold broadcastToRoom
  cases alGet s.activeRooms a with
  | none => rfl
  | some ms => exact foldlSend_activeRooms ms s m ex

theorem broadcastToRoom_outbox (s : BrokerState) (a : String) (m : SigMsg)
    (ex : String) (ms : List String) (h : alGet s.activeRooms a = some ms) :
    (broadcastToRoom s a m ex).outbox =
      s.outbox ++
        (ms.filter (fun cid => !(cid == ex) && isOpenIn s.connections cid)).map
          (fun cid => (cid, m)) := by
  unfold broadcastToRoom
  rw [h]
  exact foldlSend_outbox ms s m ex

theorem broadcastToRoom_none (s : BrokerState) (a : String) (m : SigMsg)
    (ex : String) (h : alGet s.activeRooms a = none) :
    broadcastToRoom s a m ex = s := by
  unfold broadcastToRoom
  rw [h]

/-! ### The room-membership invariant (claim C3) -/

/-- A connection id appears in some room's member set. -/
def inAnyRoom (s : BrokerState) (cid : String) : Bool :=
  s.activeRooms.any (fun p => p.2.contains cid)

/-- The single-room discipline the specification leaves open — a connect uses
a fresh id, and a connection only joins while it is in no room — plus the
requirement that the joined room id is nonempty (the JS cleanup paths treat
the empty string as falsy and never clean room `""`).  All other operations
are unrestricted. -/
def disciplinedB (s : BrokerState) : Op → Bool
  | Op.connect cid => (alGet s.connections cid).isNone && !(inAnyRoom s cid)
  | Op.joinCall cid alertId _ _ => !(inAnyRoom s cid) && !(alertId == "")
  | _ => true

/-- Every op of the list satisfies the discipline in the state it runs in. -/
def disciplinedOps : BrokerState → List Op → Prop
  | _, [] => True
  | s, op :: rest => disciplinedB s op = true ∧ disciplinedOps (stepOp s op) rest

instance : ∀ s ops, Decidable (disciplinedOps s ops)
  | _, [] => .isTrue trivial
  | s, op :: rest =>
    have : Decidable (disciplinedOps (stepOp s op) rest) := instDecidableDisciplinedOps _ _
    instDecidableAnd

/-- Every member of every room is a live connection whose recorded `alertId`
is that room's key. -/
def RoomInv (conns : List (String × ServerConn))
    (rooms : List (String × List String)) : Prop :=
  ∀ p ∈ rooms, ∀ m ∈ p.2, ∃ c, alGet conns m = some c ∧ c.alertId = some p.1

/-- Well-formedness of a connections map and room index: map keys are unique,
room member sets are duplicate-free with nonempty room keys (the empty-string
room id is falsy in JS and is skipped by every cleanup path), and the
room-membership invariant holds. -/
def WF (conns : List (String × ServerConn))
    (rooms : List (String × List String)) : Prop :=
  keysNodup conns ∧ keysNodup rooms ∧
    (∀ p ∈ rooms, p.2.Nodup ∧ p.1 ≠ "") ∧ RoomInv conns rooms

/-- Well-formedness of a broker state. -/
def StateWF (s : BrokerState) : Prop :=
  WF s.connections s.activeRooms

/-! ### Field characterizations of the handlers -/

theorem mem_of_alGet {α : Type} {l : List (String × α)} {k : String} {v : α}
    (h : alGet l k = some v) : (k, v) ∈ l := by
  induction l with
  | nil => simp [alGet] at h
  | cons p t ih =>
    obtain ⟨k0, v0⟩ := p
    by_cases h0 : k0 = k
    · subst h0
      simp [alGet] at h
      simp [h]
    · simp only [alGet, if_neg h0] at h
      exact List.mem_cons_of_mem _ (ih h)

theorem mem_setAdd {l : List String} {x m : String} (h : m ∈ setAdd l x) :
    m ∈ l ∨ m = x := by
  unfold setAdd at h
  by_cases hx : x ∈ l
  · rw [if_pos hx] at h
    exact Or.inl h
  · rw [if_neg hx] at h
    rcases List.mem_append.1 h with h | h
    · exact Or.inl h
    · exact Or.inr (List.mem_singleton.1 h)

theorem setAdd_nodup {l : List String} (x : String) (h : l.Nodup) :
    (setAdd l x).Nodup := by
  unfold setAdd
  by_cases hx : x ∈ l
  · rw [if_pos hx]; exact h
  · rw [if_neg hx]
    simp [List.nodup_append, h, hx]

theorem not_inAnyRoom {s : BrokerState} {cid : String}
    (h : inAnyRoom s cid = false) : ∀ p ∈ s.activeRooms, cid ∉ p.2 := by
  intro p hp hm
  unfold inAnyRoom at h
  rw [List.any_eq_false] at h
  have := h p hp
  simp at this
  exact this hm

theorem handleConnect_connections (s : BrokerState) (cid : String) :
    (handleConnect s cid).connections =
      alSet s.connections cid
        { socketOpen := true, role := "user", alertId := none, userId := none } := by
  unfold handleConnect
  rw [sendMessage_connections]

theorem handleConnect_activeRooms (s : BrokerState) (cid : String) :
    (handleConnect s cid).activeRooms = s.activeRooms := by
  unfold handleConnect
  rw [sendMessage_activeRooms]

theorem handleJoinCall_connections (s : BrokerState) (cid a r : String)
    (u : Option String) (conn : ServerConn)
    (h : alGet s.connections cid = some conn) :
    (handleJoinCall s cid a r u).connections =
      alSet s.connections cid { conn with alertId := some a, role := r, userId := u } := by
  unfold handleJoinCall
  rw [h]
  dsimp only
  repeat' split
  all_goals simp only [sendMessage_connections, broadcastToRoom_connections]

theorem handleJoinCall_activeRooms (s : BrokerState) (cid a r : String)
    (u : Option String) (conn : ServerConn)
    (h : alGet s.connections cid = some conn) :
    (handleJoinCall s cid a r u).activeRooms =
      alSet s.activeRooms a (setAdd ((alGet s.activeRooms a).getD []) cid) := by
  unfold handleJoinCall
  rw [h]
  dsimp only
  cases hroom : alGet s.activeRooms a with
  | none =>
    simp only [hroom, Option.getD_none]
    repeat' split
    all_goals simp only [sendMessage_activeRooms, broadcastToRoom_activeRooms]
  | some ms =>
    simp only [hroom, Option.getD_some]
    repeat' split
    all_goals simp only [sendMessage_activeRooms, broadcastToRoom_activeRooms]

theorem handleJoinCall_absent (s : BrokerState) (cid a r : String)
    (u : Option String) (h : alGet s.connections cid = none) :
    handleJoinCall s cid a r u = s := by
  unfold handleJoinCall
  rw [h]

theorem handleOffer_connections (s : BrokerState) (f : String) (t : Option String)
    (d : String) : (handleOffer s f t d).connections = s.connections := by
  unfold handleOffer
  cases t with
  | none => rfl
  | some t0 =>
    dsimp only
    split
    · rw [sendMessage_connections]
    · rfl

theorem handleOffer_activeRooms (s : BrokerState) (f : String) (t : Option String)
    (d : String) : (handleOffer s f t d).activeRooms = s.activeRooms := by
  unfold handleOffer
  cases t with
  | none => rfl
  | some t0 =>
    dsimp only
    split
    · rw [sendMessage_activeRooms]
    · rfl

theorem handleAnswer_connections (s : BrokerState) (f : String) (t : Option String)
    (d : String) : (handleAnswer s f t d).connections = s.connections := by
  unfold handleAnswer
  cases t with
  | none => rfl
  | some t0 =>
    dsimp only
    split
    · rw [sendMessage_connections]
    · rfl

theorem handleAnswer_activeRooms (s : BrokerState) (f : String) (t : Option String)
    (d : String) : (handleAnswer s f t d).activeRooms = s.activeRooms := by
  unfold handleAnswer
  cases t with
  | none => rfl
  | some t0 =>
    dsimp only
    split
    · rw [sendMessage_activeRooms]
    · rfl

theorem handleIceCandidate_connections (s : BrokerState) (f : String)
    (t : Option String) (d : String) :
    (handleIceCandidate s f t d).connections = s.connections := by
  unfold handleIceCandidate
  cases t with
  | none => rfl
  | some t0 =>
    dsimp only
    split
    · rw [sendMessage_connections]
    · rfl

theorem handleIceCandidate_activeRooms (s : BrokerState) (f : String)
    (t : Option String) (d : String) :
    (handleIceCandidate s f t d).activeRooms = s.activeRooms := by
  unfold handleIceCandidate
  cases t with
  | none => rfl
  | some t0 =>
    dsimp only
    split
    · rw [sendMessage_activeRooms]
    · rfl

theorem handleLeaveCall_connections (s : BrokerState) (cid : String) :
    (handleLeaveCall s cid).connections = s.connections := by
  unfold handleLeaveCall
  cases hconn : alGet s.connections cid with
  | none => rfl
  | some conn =>
    dsimp only
    cases halert : conn.alertId with
    | none => rfl
    | some a =>
      dsimp only
      split
      · rfl
      · rw [broadcastToRoom_connections]
        cases hroom : alGet s.activeRooms a with
        | none => rfl
        | some ms =>
          dsimp only
          split <;> rfl

/-! ### Preservation of the invariant -/

theorem handleLeaveCall_activeRooms_spec (s : BrokerState) (cid a : String)
    (conn : ServerConn) (hconn : alGet s.connections cid = some conn)
    (halert : conn.alertId = some a) (ha : a ≠ "") :
    (handleLeaveCall s cid).activeRooms =
      (match alGet s.activeRooms a with
       | none => s.activeRooms
       | some ms =>
         if ms.erase cid = [] then alDel s.activeRooms a
         else alSet s.activeRooms a (ms.erase cid)) := by
  unfold handleLeaveCall
  rw [hconn]
  dsimp only
  rw [halert]
  dsimp only
  rw [if_neg ha]
  rw [broadcastToRoom_activeRooms]
  cases hroom : alGet s.activeRooms a with
  | none => rfl
  | some ms =>
    dsimp only
    split <;> rfl

theorem handleLeaveCall_noRoom (s : BrokerState) (cid : String) (conn : ServerConn)
    (hconn : alGet s.connections cid = some conn)
    (halert : conn.alertId = none ∨ conn.alertId = some "") :
    handleLeaveCall s cid = s := by
  unfold handleLeaveCall
  rw [hconn]
  dsimp only
  rcases halert with h0 | h0
  · rw [h0]
  · rw [h0]
    dsimp only
    rw [if_pos rfl]

theorem stateWF_handleLeaveCall (s : BrokerState) (cid : String) (h : StateWF s) :
    StateWF (handleLeaveCall s cid) := by
  obtain ⟨hc, hr, hm, hinv⟩ := h
  unfold StateWF
  rw [handleLeaveCall_connections]
  cases hconn : alGet s.connections cid with
  | none =>
    unfold handleLeaveCall
    rw [hconn]
    exact ⟨hc, hr, hm, hinv⟩
  | some conn =>
    cases halert : conn.alertId with
    | none =>
      unfold handleLeaveCall
      rw [hconn]
      dsimp only
      rw [halert]
      exact ⟨hc, hr, hm, hinv⟩
    | some a =>
      by_cases ha : a = ""
      · rw [handleLeaveCall_noRoom s cid conn hconn (Or.inr (ha ▸ halert))]
        exact ⟨hc, hr, hm, hinv⟩
      · rw [handleLeaveCall_activeRooms_spec s cid a conn hconn halert ha]
        cases hroom : alGet s.activeRooms a with
        | none => exact ⟨hc, hr, hm, hinv⟩
        | some ms =>
          dsimp only
          by_cases he : ms.erase cid = []
          · rw [if_pos he]
            refine ⟨hc, keysNodup_alDel a hr, ?_, ?_⟩
            · intro p hp
              exact hm p (mem_alDel hp)
            · intro p hp m hmm
              exact hinv p (mem_alDel hp) m hmm
          · rw [if_neg he]
            have hmsnodup : ms.Nodup := (hm (a, ms) (mem_of_alGet hroom)).1
            refine ⟨hc, keysNodup_alSet a _ hr, ?_, ?_⟩
            · intro p hp
              rcases mem_alSet_of_nodup hr hp with hpe | ⟨hp2, _⟩
              · rw [hpe]
                exact ⟨hmsnodup.erase cid, ha⟩
              · exact hm p hp2
            · intro p hp m hmm
              rcases mem_alSet_of_nodup hr hp with hpe | ⟨hp2, _⟩
              · rw [hpe] at hmm ⊢
                exact hinv (a, ms) (mem_of_alGet hroom) m (List.mem_of_mem_erase hmm)
              · exact hinv p hp2 m hmm

theorem stateWF_handleJoinCall (s : BrokerState) (cid a r : String)
    (u : Option String) (h : StateWF s) (hnoroom : inAnyRoom s cid = false)
    (ha : a ≠ "") : StateWF (handleJoinCall s cid a r u) := by
  obtain ⟨hc, hr, hm, hinv⟩ := h
  cases hconn : alGet s.connections cid with
  | none =>
    rw [handleJoinCall_absent s cid a r u hconn]
    exact ⟨hc, hr, hm, hinv⟩
  | some conn =>
    unfold StateWF
    rw [handleJoinCall_connections s cid a r u conn hconn,
      handleJoinCall_activeRooms s cid a r u conn hconn]
    have hmsnodup : ((alGet s.activeRooms a).getD []).Nodup := by
      cases hroom : alGet s.activeRooms a with
      | none => simp
      | some ms0 =>
        simpa using (hm (a, ms0) (mem_of_alGet hroom)).1
    have hmsinv : ∀ m ∈ (alGet s.activeRooms a).getD [], m ≠ cid →
        ∃ c, alGet s.connections m = some c ∧ c.alertId = some a := by
      intro m hm0 _
      cases hroom : alGet s.activeRooms a with
      | none => rw [hroom] at hm0; simp at hm0
      | some ms0 =>
        rw [hroom] at hm0
        simp only [Option.getD_some] at hm0
        exact hinv (a, ms0) (mem_of_alGet hroom) m hm0
    refine ⟨keysNodup_alSet _ _ hc, keysNodup_alSet _ _ hr, ?_, ?_⟩
    · intro p hp
      rcases mem_alSet_of_nodup hr hp with hpe | ⟨hp2, _⟩
      · rw [hpe]
        exact ⟨setAdd_nodup cid hmsnodup, ha⟩
      · exact hm p hp2
    · intro p hp m hmm
      rcases mem_alSet_of_nodup hr hp with hpe | ⟨hp2, hpne⟩
      · rw [hpe] at hmm ⊢
        by_cases hmc : m = cid
        · subst hmc
          refine ⟨{ conn with alertId := some a, role := r, userId := u },
            alGet_alSet_self _ _ _, rfl⟩
        · rcases mem_setAdd hmm with hmem | hme
          · obtain ⟨c, hcg, hca⟩ := hmsinv m hmem hmc
            refine ⟨c, ?_, hca⟩
            rw [alGet_alSet_ne _ _ _ _ (fun hh => hmc hh.symm)]
            exact hcg
          · exact absurd hme hmc
      · have hmc : m ≠ cid := by
          intro he
          exact (not_inAnyRoom hnoroom p hp2) (he ▸ hmm)
        obtain ⟨c, hcg, hca⟩ := hinv p hp2 m hmm
        refine ⟨c, ?_, hca⟩
        rw [alGet_alSet_ne _ _ _ _ (fun hh => hmc hh.symm)]
        exact hcg

theorem handleLeaveCall_not_mem (s : BrokerState) (cid a : String)
    (conn : ServerConn) (hconn : alGet s.connections cid = some conn)
    (halert : conn.alertId = some a) (ha : a ≠ "") (h : StateWF s) :
    ∀ p ∈ (handleLeaveCall s cid).activeRooms, cid ∉ p.2 := by
  obtain ⟨hc, hr, hm, hinv⟩ := h
  intro p hp hmem
  rw [handleLeaveCall_activeRooms_spec s cid a conn hconn halert ha] at hp
  have key : ∀ q ∈ s.activeRooms, cid ∈ q.2 → q.1 = a := by
    intro q hq hqmem
    obtain ⟨c, hcg, hca⟩ := hinv q hq cid hqmem
    rw [hconn] at hcg
    injection hcg with hce
    rw [← hce] at hca
    rw [halert] at hca
    injection hca with hae
    exact hae.symm
  cases hroom : alGet s.activeRooms a with
  | none =>
    rw [hroom] at hp
    dsimp only at hp
    have hpa : p.1 = a := key p hp hmem
    have : (p.1, p.2) ∈ s.activeRooms := by
      obtain ⟨p1, p2⟩ := p
      exact hp
    rw [hpa] at this
    exact alGet_ne_none_of_mem this hroom
  | some ms =>
    rw [hroom] at hp
    dsimp only at hp
    by_cases he : ms.erase cid = []
    · rw [if_pos he] at hp
      obtain ⟨hp2, hpne⟩ := mem_alDel_of_nodup hr hp
      exact hpne (key p hp2 hmem)
    · rw [if_neg he] at hp
      rcases mem_alSet_of_nodup hr hp with hpe | ⟨hp2, hpne⟩
      · rw [hpe] at hmem
        have hmsnodup : ms.Nodup := (hm (a, ms) (mem_of_alGet hroom)).1
        exact hmsnodup.not_mem_erase hmem
      · exact hpne (key p hp2 hmem)

theorem stateWF_handleConnectionClose (s : BrokerState) (cid : String)
    (h : StateWF s) : StateWF (handleConnectionClose s cid) := by
  unfold handleConnectionClose
  cases hconn : alGet s.connections cid with
  | none => exact h
  | some conn =>
    dsimp only
    cases halert : conn.alertId with
    | none =>
      dsimp only
      obtain ⟨hc, hr, hm, hinv⟩ := h
      refine ⟨keysNodup_alDel _ hc, hr, hm, ?_⟩
      intro p hp m hmm
      obtain ⟨c, hcg, hca⟩ := hinv p hp m hmm
      have hmcid : m ≠ cid := by
        intro he
        rw [he, hconn] at hcg
        injection hcg with hce
        rw [← hce, halert] at hca
        exact Option.noConfusion hca
      refine ⟨c, ?_, hca⟩
      rw [alGet_alDel_ne _ _ _ (fun hh => hmcid hh.symm)]
      exact hcg
    | some a =>
      dsimp only
      by_cases ha : a = ""
      · rw [if_pos ha]
        obtain ⟨hc, hr, hm, hinv⟩ := h
        refine ⟨keysNodup_alDel _ hc, hr, hm, ?_⟩
        intro p hp m hmm
        obtain ⟨c, hcg, hca⟩ := hinv p hp m hmm
        have hmcid : m ≠ cid := by
          intro he
          rw [he, hconn] at hcg
          injection hcg with hce
          rw [← hce, halert] at hca
          injection hca with hae
          apply (hm p hp).2
          rw [← hae]
          exact ha
        refine ⟨c, ?_, hca⟩
        rw [alGet_alDel_ne _ _ _ (fun hh => hmcid hh.symm)]
        exact hcg
      · rw [if_neg ha]
        have h1 : StateWF (handleLeaveCall s cid) := stateWF_handleLeaveCall s cid h
        have hnot := handleLeaveCall_not_mem s cid a conn hconn halert ha h
        obtain ⟨hc1, hr1, hm1, hinv1⟩ := h1
        refine ⟨keysNodup_alDel _ hc1, hr1, hm1, ?_⟩
        intro p hp m hmm
        obtain ⟨c, hcg, hca⟩ := hinv1 p hp m hmm
        have hmcid : m ≠ cid := by
          intro he
          exact hnot p hp (he ▸ hmm)
        refine ⟨c, ?_, hca⟩
        rw [alGet_alDel_ne _ _ _ (fun hh => hmcid hh.symm)]
        exact hcg

theorem stateWF_stepOp (s : BrokerState) (op : Op) (h : StateWF s)
    (hd : disciplinedB s op = true) : StateWF (stepOp s op) := by
  cases op with
  | connect cid =>
    simp only [disciplinedB, Bool.and_eq_true, Bool.not_eq_true',
      Option.isNone_iff_eq_none] at hd
    simp only [stepOp, StateWF]
    rw [handleConnect_connections, handleConnect_activeRooms]
    obtain ⟨hc, hr, hm, hinv⟩ := h
    refine ⟨keysNodup_alSet _ _ hc, hr, hm, ?_⟩
    intro p hp m hmm
    have hmcid : m ≠ cid := by
      intro he
      exact (not_inAnyRoom hd.2 p hp) (he ▸ hmm)
    obtain ⟨c, hcg, hca⟩ := hinv p hp m hmm
    refine ⟨c, ?_, hca⟩
    rw [alGet_alSet_ne _ _ _ _ (fun hh => hmcid hh.symm)]
    exact hcg
  | joinCall cid a r u =>
    simp only [disciplinedB, Bool.and_eq_true, Bool.not_eq_true',
      beq_eq_false_iff_ne, ne_eq] at hd
    simp only [stepOp]
    split
    · exact stateWF_handleJoinCall s cid a r u h hd.1 hd.2
    · exact h
  | offerOp f t d =>
    simp only [stepOp]
    split
    · unfold StateWF
      rw [handleOffer_connections, handleOffer_activeRooms]
      exact h
    · exact h
  | answerOp f t d =>
    simp only [stepOp]
    split
    · unfold StateWF
      rw [handleAnswer_connections, handleAnswer_activeRooms]
      exact h
    · exact h
  | iceOp f t d =>
    simp only [stepOp]
    split
    · unfold StateWF
      rw [handleIceCandidate_connections, handleIceCandidate_activeRooms]
      exact h
    · exact h
  | leaveOp cid =>
    simp only [stepOp]
    split
    · exact stateWF_handleLeaveCall s cid h
    · exact h
  | closeOp cid =>
    simp only [stepOp]
    exact stateWF_handleConnectionClose s cid h

theorem stateWF_runAux (ops : List Op) (s : BrokerState) (h : StateWF s)
    (hd : disciplinedOps s ops) : StateWF (ops.foldl stepOp s) := by
  induction ops generalizing s with
  | nil => exact h
  | cons op rest ih =>
    obtain ⟨hd1, hd2⟩ := hd
    exact ih (stepOp s op) (stateWF_stepOp s op h hd1) hd2

theorem stateWF_initState : StateWF initState := by
  refine ⟨?_, ?_, ?_, ?_⟩ <;> simp [initState, keysNodup, RoomInv]

/-! ### Fan-out membership lemmas -/

theorem findClients_cons (lat lng radiusKm : ℝ) (cid : String) (c : WsClient)
    (rest : List (String × WsClient)) :
    findClientsWithinRadius lat lng radiusKm ((cid, c) :: rest) =
      (match c.lat, c.lng with
       | some la, some ln =>
         if la ≠ 0 ∧ ln ≠ 0 ∧ c.role = some "community" then
           (if calculateDistance lat lng la ln ≤ radiusKm then
             ⟨cid, la, ln⟩ :: findClientsWithinRadius lat lng radiusKm rest
           else findClientsWithinRadius lat lng radiusKm rest)
         else findClientsWithinRadius lat lng radiusKm rest
       | some _, none => findClientsWithinRadius lat lng radiusKm rest
       | none, _ => findClientsWithinRadius lat lng radiusKm rest) := rfl

/-- Membership in the fan-out result, characterised against the registry.  The
`≠ 0` conjuncts record the JS truthiness filter of the source. -/
theorem mem_findClientsWithinRadius (lat lng radiusKm : ℝ)
    (clients : List (String × WsClient)) (nc : NearbyClient) :
    nc ∈ findClientsWithinRadius lat lng radiusKm clients ↔
      ∃ c : WsClient, (nc.id, c) ∈ clients ∧ c.lat = some nc.lat ∧
        c.lng = some nc.lng ∧ nc.lat ≠ 0 ∧ nc.lng ≠ 0 ∧
        c.role = some "community" ∧
        calculateDistance lat lng nc.lat nc.lng ≤ radiusKm := by
  obtain ⟨ncid, nclat, nclng⟩ := nc
  induction clients with
  | nil => simp [findClientsWithinRadius]
  | cons p rest ih =>
    obtain ⟨cid, c⟩ := p
    rw [findClients_cons]
    have step_tail :
        (∃ c0 : WsClient, (ncid, c0) ∈ rest ∧ c0.lat = some nclat ∧
          c0.lng = some nclng ∧ nclat ≠ 0 ∧ nclng ≠ 0 ∧
          c0.role = some "community" ∧
          calculateDistance lat lng nclat nclng ≤ radiusKm) →
        ∃ c0 : WsClient, (ncid, c0) ∈ (cid, c) :: rest ∧ c0.lat = some nclat ∧
          c0.lng = some nclng ∧ nclat ≠ 0 ∧ nclng ≠ 0 ∧
          c0.role = some "community" ∧
          calculateDistance lat lng nclat nclng ≤ radiusKm := by
      rintro ⟨c0, hm, hp⟩
      exact ⟨c0, List.mem_cons_of_mem _ hm, hp⟩
    cases hla : c.lat with
    | none =>
      dsimp only
      rw [ih]
      constructor
      · exact step_tail
      · rintro ⟨c0, hmem, h1, h2, h3, h4, h5, h6⟩
        rcases List.mem_cons.1 hmem with he | hmem2
        · injection he with he1 he2
          subst he2
          rw [hla] at h1
          exact Option.noConfusion h1
        · exact ⟨c0, hmem2, h1, h2, h3, h4, h5, h6⟩
    | some la =>
      cases hln : c.lng with
      | none =>
        dsimp only
        rw [ih]
        constructor
        · exact step_tail
        · rintro ⟨c0, hmem, h1, h2, h3, h4, h5, h6⟩
          rcases List.mem_cons.1 hmem with he | hmem2
          · injection he with he1 he2
            subst he2
            rw [hln] at h2
            exact Option.noConfusion h2
          · exact ⟨c0, hmem2, h1, h2, h3, h4, h5, h6⟩
      | some ln =>
        dsimp only
        constructor
        · intro hmem
          by_cases hcond : la ≠ 0 ∧ ln ≠ 0 ∧ c.role = some "community"
          · rw [if_pos hcond] at hmem
            by_cases hdist : calculateDistance lat lng la ln ≤ radiusKm
            · rw [if_pos hdist] at hmem
              rcases List.mem_cons.1 hmem with he | hmem2
              · injection he with hei hela heln
                subst hei
                subst hela
                subst heln
                exact ⟨c, List.mem_cons.2 (Or.inl rfl), hla, hln,
                  hcond.1, hcond.2.1, hcond.2.2, hdist⟩
              · exact step_tail (ih.1 hmem2)
            · rw [if_neg hdist] at hmem
              exact step_tail (ih.1 hmem)
          · rw [if_neg hcond] at hmem
            exact step_tail (ih.1 hmem)
        · rintro ⟨c0, hmem, h1, h2, h3, h4, h5, h6⟩
          rcases List.mem_cons.1 hmem with he | hmem2
          · injection he with he1 he2
            subst he1
            subst he2
            rw [hla] at h1
            injection h1 with hla2
            rw [hln] at h2
            injection h2 with hln2
            subst hla2
            subst hln2
            rw [if_pos ⟨h3, h4, h5⟩, if_pos h6]
            exact List.mem_cons.2 (Or.inl rfl)
          · have htail := ih.2 ⟨c0, hmem2, h1, h2, h3, h4, h5, h6⟩
            by_cases hcond : la ≠ 0 ∧ ln ≠ 0 ∧ c.role = some "community"
            · rw [if_pos hcond]
              by_cases hdist : calculateDistance lat lng la ln ≤ radiusKm
              · rw [if_pos hdist]
                exact List.mem_cons_of_mem _ htail
              · rw [if_neg hdist]
                exact htail
            · rw [if_neg hcond]
              exact htail

theorem push_cons (lat lng radiusKm : ℝ) (sub : PushSub) (rest : List PushSub) :
    getPushSubscriptionsNearLocation lat lng radiusKm (sub :: rest) =
      (match sub.lat, sub.lng with
       | some la, some ln =>
         if la ≠ 0 ∧ ln ≠ 0 ∧ sub.isActive then
           (if calculateDistance lat lng la ln ≤ radiusKm then
             sub :: getPushSubscriptionsNearLocation lat lng radiusKm rest
           else getPushSubscriptionsNearLocation lat lng radiusKm rest)
         else getPushSubscriptionsNearLocation lat lng radiusKm rest
       | some _, none => getPushSubscriptionsNearLocation lat lng radiusKm rest
       | none, _ => getPushSubscriptionsNearLocation lat lng radiusKm rest) := rfl

/-- Members of the push result passed the truthiness guard: both coordinates
present and nonzero, and the subscription active. -/
theorem mem_getPushSubscriptions (lat lng radiusKm : ℝ) (subs : List PushSub)
    (sub : PushSub) (h : sub ∈ getPushSubscriptionsNearLocation lat lng radiusKm subs) :
    (∃ la, sub.lat = some la ∧ la ≠ 0) ∧ (∃ ln, sub.lng = some ln ∧ ln ≠ 0) ∧
      sub.isActive = true := by
  induction subs with
  | nil => simp [getPushSubscriptionsNearLocation] at h
  | cons s0 rest ih =>
    rw [push_cons] at h
    cases hla : s0.lat with
    | none =>
      rw [hla] at h
      exact ih h
    | some la =>
      cases hln : s0.lng with
      | none =>
        rw [hla, hln] at h
        exact ih h
      | some ln =>
        rw [hla, hln] at h
        dsimp only at h
        by_cases hcond : la ≠ 0 ∧ ln ≠ 0 ∧ s0.isActive
        · rw [if_pos hcond] at h
          by_cases hdist : calculateDistance lat lng la ln ≤ radiusKm
          · rw [if_pos hdist] at h
            rcases List.mem_cons.1 h with he | h2
            · subst he
              exact ⟨⟨la, hla, hcond.1⟩, ⟨ln, hln, hcond.2.1⟩, hcond.2.2⟩
            · exact ih h2
          · rw [if_neg hdist] at h
            exact ih h
        · rw [if_neg hcond] at h
          exact ih h

/-! ### Registry fan-out dispatch lemmas (routes module) -/

/-- Whether a registry entry exists for the id and its socket is open. -/
def wsOpen (clients : List (String × WsClient)) (cid : String) : Bool :=
  match alGet clients cid with
  | some c => c.socketOpen
  | none => false

theorem sendToClient_clients (s : WsState) (cid m : String) :
    (sendToClient s cid m).connectedClients = s.connectedClients := by
  unfold sendToClient
  cases alGet s.connectedClients cid with
  | none => rfl
  | some c =>
    by_cases h : c.socketOpen <;> simp [h]

theorem sendToClient_outbox (s : WsState) (cid m : String) :
    (sendToClient s cid m).outbox =
      s.outbox ++ (if wsOpen s.connectedClients cid then [(cid, m)] else []) := by
  unfold sendToClient wsOpen
  cases alGet s.connectedClients cid with
  | none => simp
  | some c =>
    by_cases h : c.socketOpen <;> simp [h]

theorem foldlSendAll_clients (l : List (String × WsClient)) (s : WsState) (m : String) :
    ((l.foldl (fun acc p => sendToClient acc p.1 m) s)).connectedClients
      = s.connectedClients := by
  induction l generalizing s with
  | nil => rfl
  | cons p t ih =>
    simp only [List.foldl_cons]
    rw [ih, sendToClient_clients]

theorem foldlSendAll_outbox (l : List (String × WsClient)) (s : WsState) (m : String) :
    ((l.foldl (fun acc p => sendToClient acc p.1 m) s)).outbox
      = s.outbox ++
        (l.filter (fun p => wsOpen s.connectedClients p.1)).map (fun p => (p.1, m)) := by
  induction l generalizing s with
  | nil => simp
  | cons p t ih =>
    simp only [List.foldl_cons, List.filter_cons]
    rw [ih (sendToClient s p.1 m), sendToClient_clients, sendToClient_outbox]
    by_cases hop : wsOpen s.connectedClients p.1
    · simp [hop]
    · simp [hop]

theorem broadcastToAll_clients (s : WsState) (m : String) :
    (broadcastToAll s m).connectedClients = s.connectedClients := by
  unfold broadcastToAll
  exact foldlSendAll_clients s.connectedClients s m

theorem broadcastToAll_outbox (s : WsState) (m : String)
    (hn : keysNodup s.connectedClients) :
    (broadcastToAll s m).outbox =
      s.outbox ++
        (s.connectedClients.filter (fun p => p.2.socketOpen)).map (fun p => (p.1, m)) := by
  unfold broadcastToAll
  rw [foldlSendAll_outbox]
  have hfe : s.connectedClients.filter (fun p => wsOpen s.connectedClients p.1)
      = s.connectedClients.filter (fun p => p.2.socketOpen) := by
    apply List.filter_congr
    intro p hp
    unfold wsOpen
    rw [alGet_of_mem_nodup hn hp]
  rw [hfe]

/-! ### Leave-call outbox characterization -/

theorem alGet_eq_none_of_not_mem_keys {α : Type} {l : List (String × α)} {k : String}
    (h : k ∉ l.map Prod.fst) : alGet l k = none := by
  induction l with
  | nil => rfl
  | cons p t ih =>
    obtain ⟨k0, v0⟩ := p
    simp only [List.map_cons, List.mem_cons] at h
    push_neg at h
    have hne : k0 ≠ k := Ne.symm h.1
    simp only [alGet, if_neg hne]
    exact ih h.2

theorem alGet_alDel_self {α : Type} {l : List (String × α)} {k : String}
    (hn : keysNodup l) : alGet (alDel l k) k = none := by
  induction l with
  | nil => rfl
  | cons p t ih =>
    obtain ⟨k0, v0⟩ := p
    simp only [keysNodup, List.map_cons, List.nodup_cons] at hn
    by_cases h0 : k0 = k
    · simp only [alDel, if_pos h0]
      subst h0
      exact alGet_eq_none_of_not_mem_keys hn.1
    · simp only [alDel, if_neg h0, alGet, if_neg h0]
      exact ih hn.2

theorem handleLeaveCall_outbox (s : BrokerState) (cid a : String) (conn : ServerConn)
    (ms : List String) (hr : keysNodup s.activeRooms)
    (hconn : alGet s.connections cid = some conn) (halert : conn.alertId = some a)
    (ha : a ≠ "") (hroom : alGet s.activeRooms a = some ms) :
    (handleLeaveCall s cid).outbox =
      s.outbox ++
        ((ms.erase cid).filter (fun m => !(m == cid) && isOpenIn s.connections m)).map
          (fun m => (m, SigMsg.userLeft cid conn.role)) := by
  unfold handleLeaveCall
  rw [hconn]
  dsimp only
  rw [halert]
  dsimp only
  rw [if_neg ha]
  rw [hroom]
  dsimp only
  by_cases he : ms.erase cid = []
  · rw [if_pos he, he]
    have hnone : alGet (alDel s.activeRooms a) a = none := alGet_alDel_self hr
    rw [broadcastToRoom_none _ _ _ _ hnone]
    simp
  · rw [if_neg he]
    have hsome : alGet (alSet s.activeRooms a (ms.erase cid)) a = some (ms.erase cid) :=
      alGet_alSet_self _ _ _
    rw [broadcastToRoom_outbox _ _ _ _ _ hsome]

theorem handleLeaveCall_absent (s : BrokerState) (cid : String)
    (h : alGet s.connections cid = none) : handleLeaveCall s cid = s := by
  unfold handleLeaveCall
  rw [h]

/-! ### Message counting -/

/-- Is the message a `user-joined` notification about connection `x`. -/
def isUserJoinedAbout (x : String) : SigMsg → Bool
  | SigMsg.userJoined c _ _ => c == x
  | _ => false

/-- Is the message a `user-left` notification about connection `x`. -/
def isUserLeftAbout (x : String) : SigMsg → Bool
  | SigMsg.userLeft c _ => c == x
  | _ => false

/-- Is the message an `agent-available` event naming agent `x`. -/
def isAgentAvailableFrom (x : String) : SigMsg → Bool
  | SigMsg.agentAvailable g => g == x
  | _ => false

/-- Is the message any `agent-available` event. -/
def isAgentAvailableAny : SigMsg → Bool
  | SigMsg.agentAvailable _ => true
  | _ => false

/-- How many messages satisfying `f` were delivered to `recipient`. -/
def sentCount (outbox : List (String × SigMsg)) (recipient : String)
    (f : SigMsg → Bool) : Nat :=
  (outbox.filter (fun p => p.1 == recipient && f p.2)).length

/-! ### Claim theorems -/

/-- Claim C2: for every pair of coordinates, `calculateDistance` returns the
haversine great-circle distance with mean Earth radius 6371 km: with the
degree deltas converted to radians and
`x = sin(dLat/2)^2 + cos(lat1)*cos(lat2)*sin(dLng/2)^2`, the result equals
`2 * atan2 (sqrt x) (sqrt (1 - x)) * 6371`. -/
theorem C2_calculateDistance_formula (lat1 lng1 lat2 lng2 : ℝ) :
    calculateDistance lat1 lng1 lat2 lng2 = distanceKmSpec lat1 lng1 lat2 lng2 := by
  unfold calculateDistance distanceKmSpec
  rw [haversineA_eq_haversineX]
  ring

/-- Claim C9: for every pair of coordinates `a` and `b`,
`calculateDistance a b = calculateDistance b a`, `calculateDistance a a = 0`,
and `calculateDistance a b ≥ 0`. -/
theorem C9_distance_algebra (lat1 lng1 lat2 lng2 : ℝ) :
    calculateDistance lat1 lng1 lat2 lng2 = calculateDistance lat2 lng2 lat1 lng1 ∧
      calculateDistance lat1 lng1 lat1 lng1 = 0 ∧
      0 ≤ calculateDistance lat1 lng1 lat2 lng2 :=
  ⟨calculateDistance_comm lat1 lng1 lat2 lng2, calculateDistance_self lat1 lng1,
    calculateDistance_nonneg lat1 lng1 lat2 lng2⟩

/-- Claim C1 (amended): the proximity fan-out returns exactly the registered
connections with role `community` whose recorded coordinate is present *and
nonzero in both components* and lies at haversine distance ≤ R (boundary
inclusive); nothing at distance > R is returned.  (The original claim, without
the nonzero condition, fails: the JS truthiness guard drops latitude or
longitude exactly 0 — see the counterexample.) -/
theorem C1_route_membership (lat lng radiusKm : ℝ)
    (clients : List (String × WsClient)) (nc : NearbyClient) :
    nc ∈ findClientsWithinRadius lat lng radiusKm clients ↔
      ∃ c : WsClient, (nc.id, c) ∈ clients ∧ c.lat = some nc.lat ∧
        c.lng = some nc.lng ∧ nc.lat ≠ 0 ∧ nc.lng ≠ 0 ∧
        c.role = some "community" ∧
        calculateDistance lat lng nc.lat nc.lng ≤ radiusKm :=
  mem_findClientsWithinRadius lat lng radiusKm clients nc

/-- A registered community client whose recorded coordinate is exactly
`(0, 0)`. -/
def zeroCoordClient : WsClient :=
  { socketOpen := true, userId := none, role := some "community",
    lat := some 0, lng := some 0 }

/-- Claim C1 counterexample: a registered `community` connection whose recorded
coordinate `(0,0)` is at haversine distance `0 ≤ 1` from the event at `(0,0)`,
yet the fan-out for radius 1 returns the empty set — the claimed
"exactly the set of connections within R" fails at this input. -/
theorem C1_counterexample :
    zeroCoordClient.role = some "community" ∧
      zeroCoordClient.lat = some 0 ∧ zeroCoordClient.lng = some 0 ∧
      calculateDistance 0 0 0 0 ≤ 1 ∧
      findClientsWithinRadius 0 0 1 [("c1", zeroCoordClient)] = [] := by
  refine ⟨rfl, rfl, rfl, ?_, ?_⟩
  · rw [calculateDistance_self]
    norm_num
  · rw [findClients_cons]
    simp [zeroCoordClient, findClientsWithinRadius]

/-- Claim C10: a registered community connection or active push subscription
whose recorded latitude or longitude equals exactly 0 is never part of the
recipient set, regardless of distance: every fan-out result entry carries
nonzero coordinates, and a subscription with a zero coordinate is never an
element of the push query result. -/
theorem C10_zero_coordinate_excluded :
    (∀ (lat lng radiusKm : ℝ) (clients : List (String × WsClient))
        (nc : NearbyClient), nc ∈ findClientsWithinRadius lat lng radiusKm clients →
        nc.lat ≠ 0 ∧ nc.lng ≠ 0) ∧
    (∀ (lat lng radiusKm : ℝ) (subs : List PushSub) (sub : PushSub),
        sub.lat = some 0 ∨ sub.lng = some 0 →
        sub ∉ getPushSubscriptionsNearLocation lat lng radiusKm subs) := by
  constructor
  · intro lat lng radiusKm clients nc hmem
    obtain ⟨c, _, _, _, h3, h4, _, _⟩ :=
      (mem_findClientsWithinRadius lat lng radiusKm clients nc).1 hmem
    exact ⟨h3, h4⟩
  · intro lat lng radiusKm subs sub hzero hmem
    obtain ⟨⟨la, hla, hla0⟩, ⟨ln, hln, hln0⟩, _⟩ :=
      mem_getPushSubscriptions lat lng radiusKm subs sub hmem
    rcases hzero with h0 | h0
    · rw [h0] at hla
      injection hla with he
      exact hla0 he.symm
    · rw [h0] at hln
      injection hln with he
      exact hln0 he.symm

/-- An active push subscription recorded at latitude exactly 0. -/
def zeroLatSub : PushSub :=
  { id := "s1", lat := some 0, lng := some 5, isActive := true }

/-- Witness for C10 at a concrete input: the zero-latitude subscription is not
returned even for an event at its own coordinate with a huge radius. -/
theorem C10_witness :
    zeroLatSub ∉ getPushSubscriptionsNearLocation 0 5 1000 [zeroLatSub] :=
  C10_zero_coordinate_excluded.2 0 5 1000 [zeroLatSub] zeroLatSub (Or.inl rfl)

/-- A connected client with an open transport and no other state. -/
def openWsClient : WsClient :=
  { socketOpen := true, userId := none, role := none, lat := none, lng := none }

/-- A connected client whose transport is closed/broken. -/
def closedWsClient : WsClient :=
  { socketOpen := false, userId := none, role := none, lat := none, lng := none }

/-- Claim C8 (amended): a fan-out dispatch over a registry with closed or
broken recipients raises no error, skips exactly the recipients whose socket
is not open, delivers to every remaining recipient — and leaves the registry
unchanged.  (The original claim's "the failing entry is removed from the
registry as a consequence of the failed write" fails: the write path never
prunes; removal happens only through the socket close/error events — see the
counterexample.) -/
theorem C8_dispatch_failures (s : WsState) (m : String)
    (hn : keysNodup s.connectedClients) :
    (broadcastToAll s m).connectedClients = s.connectedClients ∧
      (broadcastToAll s m).outbox =
        s.outbox ++
          (s.connectedClients.filter (fun p => p.2.socketOpen)).map
            (fun p => (p.1, m)) :=
  ⟨broadcastToAll_clients s m, broadcastToAll_outbox s m hn⟩

/-- Witness for C8 at a concrete registry with a broken transport in the
middle: the two open recipients receive the message and the registry is
untouched. -/
theorem C8_witness :
    (broadcastToAll
        ⟨[("x", openWsClient), ("y", closedWsClient), ("z", openWsClient)], []⟩
        "m").connectedClients
        = [("x", openWsClient), ("y", closedWsClient), ("z", openWsClient)] ∧
      (broadcastToAll
        ⟨[("x", openWsClient), ("y", closedWsClient), ("z", openWsClient)], []⟩
        "m").outbox = [("x", "m"), ("z", "m")] :=
  C8_dispatch_failures
    ⟨[("x", openWsClient), ("y", closedWsClient), ("z", openWsClient)], []⟩
    "m" (by decide)

/-- Claim C8 counterexample: after a fan-out in which the send to `"b"` fails
(socket not open), `"b"` is still present in the registry — the failed write
does not remove the failing entry. -/
theorem C8_counterexample :
    (broadcastToAll ⟨[("a", openWsClient), ("b", closedWsClient)], []⟩
        "alert").outbox = [("a", "alert")] ∧
      alGet (broadcastToAll ⟨[("a", openWsClient), ("b", closedWsClient)], []⟩
        "alert").connectedClients "b" = some closedWsClient := by
  constructor <;> rfl

/-- Claim C3 (amended): provided every `join-call` happens while the joining
connection is a member of no room (the single-room discipline the spec leaves
open) and connect ids are fresh, then after any operation sequence every
connection id in any room's member set is a live registry entry whose recorded
`alertId` is that room.  (Without the discipline the claim fails: a connection
that joins room A and then room B leaves stale membership in A on disconnect —
see the counterexample.) -/
theorem C3_room_members_live (ops : List Op) (hd : disciplinedOps initState ops) :
    ∀ p ∈ (runOps ops).activeRooms, ∀ m ∈ p.2,
      ∃ c, alGet (runOps ops).connections m = some c ∧ c.alertId = some p.1 :=
  (stateWF_runAux ops initState stateWF_initState hd).2.2.2

/-- Witness for C3 on a concrete disciplined trace: after `"a"` and `"b"` join
room `"R"`, member `"a"` is live and recorded in `"R"`. -/
theorem C3_witness :
    ∃ c, alGet (runOps [Op.connect "a", Op.joinCall "a" "R" "user" none,
        Op.connect "b", Op.joinCall "b" "R" "agent" none]).connections "a"
        = some c ∧ c.alertId = some "R" :=
  C3_room_members_live
    [Op.connect "a", Op.joinCall "a" "R" "user" none,
      Op.connect "b", Op.joinCall "b" "R" "agent" none]
    (by decide) ("R", ["a", "b"]) (by decide) "a" (by decide)

/-- Claim C3 counterexample: connection `"c"` joins room `"A"`, then room
`"B"`, then disconnects.  The cleanup pass only covers the room recorded in
`alertId` (`"B"`), so room `"A"` still lists `"c"` although no connection is
live — room membership is not a subset of live registry entries. -/
theorem C3_counterexample :
    (runOps [Op.connect "c", Op.joinCall "c" "A" "user" none,
        Op.joinCall "c" "B" "user" none, Op.closeOp "c"]).activeRooms
      = [("A", ["c"])] ∧
    (runOps [Op.connect "c", Op.joinCall "c" "A" "user" none,
        Op.joinCall "c" "B" "user" none, Op.closeOp "c"]).connections = [] := by
  constructor <;> rfl

/-- Claim C4 (amended): `leave-call` removes the connection from the room
recorded on its entry, deletes the room when the member set becomes empty,
and broadcasts `user-left` to the remaining open members; leave is a no-op
for a connection that is not live, has no recorded room, or whose recorded
room id is the empty string (falsy in JS).  (Full idempotence fails: because
`alertId` is never cleared, a second leave from a connection that already
left re-broadcasts `user-left` to the room's remaining members — see the
counterexample.) -/
theorem C4_leave_call (s : BrokerState) (cid : String) :
    (alGet s.connections cid = none → handleLeaveCall s cid = s) ∧
    (∀ conn, alGet s.connections cid = some conn →
      (conn.alertId = none ∨ conn.alertId = some "") →
      handleLeaveCall s cid = s) ∧
    (∀ conn a ms, keysNodup s.activeRooms → alGet s.connections cid = some conn →
      conn.alertId = some a → a ≠ "" → alGet s.activeRooms a = some ms →
      (handleLeaveCall s cid).connections = s.connections ∧
      alGet (handleLeaveCall s cid).activeRooms a =
        (if ms.erase cid = [] then none else some (ms.erase cid)) ∧
      (handleLeaveCall s cid).outbox =
        s.outbox ++
          ((ms.erase cid).filter
            (fun m => !(m == cid) && isOpenIn s.connections m)).map
            (fun m => (m, SigMsg.userLeft cid conn.role))) := by
  refine ⟨handleLeaveCall_absent s cid, ?_, ?_⟩
  · intro conn hconn halert
    exact handleLeaveCall_noRoom s cid conn hconn halert
  · intro conn a ms hr hconn halert ha hroom
    refine ⟨handleLeaveCall_connections s cid, ?_,
      handleLeaveCall_outbox s cid a conn ms hr hconn halert ha hroom⟩
    rw [handleLeaveCall_activeRooms_spec s cid a conn hconn halert ha, hroom]
    dsimp only
    by_cases he : ms.erase cid = []
    · rw [if_pos he, if_pos he]
      exact alGet_alDel_self hr
    · rw [if_neg he, if_neg he]
      exact alGet_alSet_self _ _ _

/-- A two-member call room on alert `"R"` used as the C4 witness state. -/
def c4State : BrokerState :=
  { connections :=
      [("a", { socketOpen := true, role := "user", alertId := some "R", userId := none }),
       ("b", { socketOpen := true, role := "user", alertId := some "R", userId := none })],
    activeRooms := [("R", ["a", "b"])],
    outbox := [] }

/-- Witness for C4 on the concrete two-member room: leaving removes `"a"`,
keeps the room with `["b"]`, and delivers exactly one `user-left` to `"b"`. -/
theorem C4_witness :
    (handleLeaveCall c4State "a").connections = c4State.connections ∧
      alGet (handleLeaveCall c4State "a").activeRooms "R" = some ["b"] ∧
      (handleLeaveCall c4State "a").outbox =
        [("b", SigMsg.userLeft "a" "user")] :=
  (C4_leave_call c4State "a").2.2
    { socketOpen := true, role := "user", alertId := some "R", userId := none }
    "R" ["a", "b"] (by decide) rfl rfl (by decide) rfl

/-- Claim C4 counterexample: `"a"` leaves room `"R"` once (one `user-left` to
`"b"`), then sends `leave-call` again.  The second leave changes no state but
broadcasts a second `user-left` to `"b"` — leave is not idempotent. -/
theorem C4_counterexample :
    sentCount (runOps [Op.connect "a", Op.connect "b",
        Op.joinCall "a" "R" "user" none, Op.joinCall "b" "R" "user" none,
        Op.leaveOp "a", Op.leaveOp "a"]).outbox "b" (isUserLeftAbout "a") = 2 ∧
      (runOps [Op.connect "a", Op.connect "b",
        Op.joinCall "a" "R" "user" none, Op.joinCall "b" "R" "user" none,
        Op.leaveOp "a", Op.leaveOp "a"]).activeRooms
        = (runOps [Op.connect "a", Op.connect "b",
            Op.joinCall "a" "R" "user" none, Op.joinCall "b" "R" "user" none,
            Op.leaveOp "a"]).activeRooms := by
  constructor <;> rfl

/-- Claim C7 (amended): a relay frame (`offer`, `answer` or `ice-candidate`)
addressed to a registered connection with an open socket and a truthy
(nonempty) id is delivered with only the `from` field added; addressed to an
unregistered id, to a registered connection whose socket is not open, or to
the empty-string id (falsy in JS), it raises no error, changes no state and
delivers nothing.  (The original live/not-live dichotomy fails: a live open
connection registered under the id `""` never receives relayed frames — see
the counterexample.) -/
theorem C7_relay (s : BrokerState) (fromId t data : String) :
    (∀ c, alGet s.connections t = some c → c.socketOpen = true → t ≠ "" →
      handleOffer s fromId (some t) data =
        { s with outbox := s.outbox ++ [(t, SigMsg.offerMsg data fromId)] } ∧
      handleAnswer s fromId (some t) data =
        { s with outbox := s.outbox ++ [(t, SigMsg.answerMsg data fromId)] } ∧
      handleIceCandidate s fromId (some t) data =
        { s with outbox := s.outbox ++ [(t, SigMsg.iceMsg data fromId)] }) ∧
    (alGet s.connections t = none →
      handleOffer s fromId (some t) data = s ∧
      handleAnswer s fromId (some t) data = s ∧
      handleIceCandidate s fromId (some t) data = s) ∧
    (∀ c, alGet s.connections t = some c → c.socketOpen = false →
      handleOffer s fromId (some t) data = s ∧
      handleAnswer s fromId (some t) data = s ∧
      handleIceCandidate s fromId (some t) data = s) ∧
    (t = "" →
      handleOffer s fromId (some t) data = s ∧
      handleAnswer s fromId (some t) data = s ∧
      handleIceCandidate s fromId (some t) data = s) := by
  refine ⟨?_, ?_, ?_, ?_⟩
  · intro c hc hopen hne
    have hcond : t ≠ "" ∧ (alGet s.connections t).isSome := by
      rw [hc]
      exact ⟨hne, rfl⟩
    refine ⟨?_, ?_, ?_⟩
    · unfold handleOffer
      dsimp only
      rw [if_pos hcond]
      unfold sendMessage
      rw [hc]
      dsimp only
      rw [if_pos hopen]
    · unfold handleAnswer
      dsimp only
      rw [if_pos hcond]
      unfold sendMessage
      rw [hc]
      dsimp only
      rw [if_pos hopen]
    · unfold handleIceCandidate
      dsimp only
      rw [if_pos hcond]
      unfold sendMessage
      rw [hc]
      dsimp only
      rw [if_pos hopen]
  · intro hdead
    have hcond : ¬(t ≠ "" ∧ (alGet s.connections t).isSome) := by
      rw [hdead]
      rintro ⟨-, hs⟩
      exact Bool.noConfusion hs
    refine ⟨?_, ?_, ?_⟩
    · unfold handleOffer
      dsimp only
      rw [if_neg hcond]
    · unfold handleAnswer
      dsimp only
      rw [if_neg hcond]
    · unfold handleIceCandidate
      dsimp only
      rw [if_neg hcond]
  · intro c hc hclosed
    by_cases hte : t = ""
    · have hcond : ¬(t ≠ "" ∧ (alGet s.connections t).isSome) := by
        rintro ⟨hne', -⟩
        exact hne' hte
      refine ⟨?_, ?_, ?_⟩
      · unfold handleOffer
        dsimp only
        rw [if_neg hcond]
      · unfold handleAnswer
        dsimp only
        rw [if_neg hcond]
      · unfold handleIceCandidate
        dsimp only
        rw [if_neg hcond]
    · have hcond : t ≠ "" ∧ (alGet s.connections t).isSome := by
        rw [hc]
        exact ⟨hte, rfl⟩
      have hno : ¬(c.socketOpen = true) := by
        rw [hclosed]
        exact Bool.false_ne_true
      refine ⟨?_, ?_, ?_⟩
      · unfold handleOffer
        dsimp only
        rw [if_pos hcond]
        unfold sendMessage
        rw [hc]
        dsimp only
        rw [if_neg hno]
      · unfold handleAnswer
        dsimp only
        rw [if_pos hcond]
        unfold sendMessage
        rw [hc]
        dsimp only
        rw [if_neg hno]
      · unfold handleIceCandidate
        dsimp only
        rw [if_pos hcond]
        unfold sendMessage
        rw [hc]
        dsimp only
        rw [if_neg hno]
  · intro hte
    have hcond : ¬(t ≠ "" ∧ (alGet s.connections t).isSome) := by
      rintro ⟨hne', -⟩
      exact hne' hte
    refine ⟨?_, ?_, ?_⟩
    · unfold handleOffer
      dsimp only
      rw [if_neg hcond]
    · unfold handleAnswer
      dsimp only
      rw [if_neg hcond]
    · unfold handleIceCandidate
      dsimp only
      rw [if_neg hcond]

/-- A connection registered under the empty-string id with an open socket. -/
def c7EmptyState : BrokerState :=
  { connections :=
      [("", { socketOpen := true, role := "user", alertId := none, userId := none })],
    activeRooms := [], outbox := [] }

/-- Claim C7 counterexample: the id `""` is registered with an open socket —
a live connection — yet an offer addressed to it is silently dropped by the
falsy `to && this.connections.has(to)` guard: nothing is delivered and the
state is unchanged, contradicting the claimed delivery to every live
target. -/
theorem C7_counterexample :
    (alGet c7EmptyState.connections "").isSome = true ∧
      (∃ c, alGet c7EmptyState.connections "" = some c ∧ c.socketOpen = true) ∧
      handleOffer c7EmptyState "y" (some "") "sdp" = c7EmptyState := by
  exact ⟨rfl, ⟨_, rfl, rfl⟩, rfl⟩

/-- A single live open connection used as the C7 witness state. -/
def c7State : BrokerState :=
  { connections :=
      [("x", { socketOpen := true, role := "user", alertId := none, userId := none })],
    activeRooms := [], outbox := [] }

/-- Witness for C7: an offer relayed to the live connection `"x"` is delivered
with the sender added as `from`. -/
theorem C7_witness :
    handleOffer c7State "y" (some "x") "sdp" =
      { c7State with outbox := [("x", SigMsg.offerMsg "sdp" "y")] } ∧
      handleAnswer c7State "y" (some "x") "sdp" =
        { c7State with outbox := [("x", SigMsg.answerMsg "sdp" "y")] } ∧
      handleIceCandidate c7State "y" (some "x") "sdp" =
        { c7State with outbox := [("x", SigMsg.iceMsg "sdp" "y")] } :=
  (C7_relay c7State "y" "x" "sdp").1
    { socketOpen := true, role := "user", alertId := none, userId := none }
    rfl rfl (by decide)

set_option maxHeartbeats 1600000 in
/-- Claim C5 (amended): when two connections each perform one join on the same
room, the *first* joiner receives exactly one `user-joined` about the second,
the second joiner receives no `user-joined` at all, and neither receives one
about itself; when the first then leaves a room with a nonempty identifier
(the empty-string room id is falsy in JS and makes leave a no-op), the
remaining member receives exactly one `user-left`.  (The original claim —
each of the two receives
exactly one `peer-joined` about the other — fails for the later joiner, which
is never told about members already in the room: see the counterexample.) -/
theorem C5_join_leave_notifications (c1 c2 room ρ1 ρ2 : String)
    (u1 u2 : Option String) (hne : c1 ≠ c2) :
    sentCount (runOps [Op.connect c1, Op.connect c2, Op.joinCall c1 room ρ1 u1,
        Op.joinCall c2 room ρ2 u2]).outbox c1 (isUserJoinedAbout c2) = 1 ∧
    sentCount (runOps [Op.connect c1, Op.connect c2, Op.joinCall c1 room ρ1 u1,
        Op.joinCall c2 room ρ2 u2]).outbox c2 (isUserJoinedAbout c1) = 0 ∧
    sentCount (runOps [Op.connect c1, Op.connect c2, Op.joinCall c1 room ρ1 u1,
        Op.joinCall c2 room ρ2 u2]).outbox c1 (isUserJoinedAbout c1) = 0 ∧
    sentCount (runOps [Op.connect c1, Op.connect c2, Op.joinCall c1 room ρ1 u1,
        Op.joinCall c2 room ρ2 u2]).outbox c2 (isUserJoinedAbout c2) = 0 ∧
    (room ≠ "" →
      sentCount (runOps [Op.connect c1, Op.connect c2, Op.joinCall c1 room ρ1 u1,
          Op.joinCall c2 room ρ2 u2, Op.leaveOp c1]).outbox
        c2 (isUserLeftAbout c1) = 1) := by
  have hne2 : c2 ≠ c1 := Ne.symm hne
  refine ⟨?_, ?_, ?_, ?_, fun hroom => ?_⟩ <;>
    (by_cases hρ2 : ρ2 = "agent" <;> by_cases hρ1u : ρ1 = "user" <;>
      by_cases hρ1a : ρ1 = "agent" <;> by_cases hc1e : c1 = "" <;>
      simp_all [runOps, stepOp, handleConnect, handleJoinCall, handleLeaveCall,
        sendMessage, broadcastToRoom, setAdd, alGet, alSet, alDel, isUserRole,
        initState, sentCount, isUserJoinedAbout, isUserLeftAbout, isOpenIn])

/-- Witness for C5 on concrete connections `"a"` and `"b"` joining room
`"r"`. -/
theorem C5_witness :
    sentCount (runOps [Op.connect "a", Op.connect "b",
        Op.joinCall "a" "r" "user" none,
        Op.joinCall "b" "r" "user" none]).outbox "a" (isUserJoinedAbout "b") = 1 ∧
    sentCount (runOps [Op.connect "a", Op.connect "b",
        Op.joinCall "a" "r" "user" none,
        Op.joinCall "b" "r" "user" none]).outbox "b" (isUserJoinedAbout "a") = 0 ∧
    sentCount (runOps [Op.connect "a", Op.connect "b",
        Op.joinCall "a" "r" "user" none,
        Op.joinCall "b" "r" "user" none]).outbox "a" (isUserJoinedAbout "a") = 0 ∧
    sentCount (runOps [Op.connect "a", Op.connect "b",
        Op.joinCall "a" "r" "user" none,
        Op.joinCall "b" "r" "user" none]).outbox "b" (isUserJoinedAbout "b") = 0 ∧
    sentCount (runOps [Op.connect "a", Op.connect "b",
        Op.joinCall "a" "r" "user" none, Op.joinCall "b" "r" "user" none,
        Op.leaveOp "a"]).outbox "b" (isUserLeftAbout "a") = 1 :=
  have h := C5_join_leave_notifications "a" "b" "r" "user" "user" none none (by decide)
  ⟨h.1, h.2.1, h.2.2.1, h.2.2.2.1, h.2.2.2.2 (by decide)⟩

/-- Claim C5 counterexample: connections `"a"` then `"b"` each join room
`"r"`, but `"b"` — the later joiner — receives zero `user-joined`
notifications about `"a"`, not the claimed exactly one. -/
theorem C5_counterexample :
    sentCount (runOps [Op.connect "a", Op.connect "b",
        Op.joinCall "a" "r" "user" none,
        Op.joinCall "b" "r" "user" none]).outbox "b" (isUserJoinedAbout "a")
      = 0 := by
  rfl

/-- Claim C6 (amended): the `agent-available` invite is produced when an
*agent* joins a room that already holds a waiting user whose connection id is
truthy (nonempty — always the case for server-generated ids): that existing
user (not the joining agent) receives exactly one `agent-available` event
naming the joining agent, and the joining agent receives none.  (The original
claim
— the joining responder receives an invite when an initiator is already
present — fails: a user joining a room that already holds an agent receives
nothing, see the counterexample.) -/
theorem C6_agent_available (u a room : String) (u1 u2 : Option String)
    (hne : u ≠ a) (hu : u ≠ "") :
    sentCount (runOps [Op.connect u, Op.connect a,
        Op.joinCall u room "user" u1, Op.joinCall a room "agent" u2]).outbox
      u (isAgentAvailableFrom a) = 1 ∧
    sentCount (runOps [Op.connect u, Op.connect a,
        Op.joinCall u room "user" u1, Op.joinCall a room "agent" u2]).outbox
      a isAgentAvailableAny = 0 := by
  have hne2 : a ≠ u := Ne.symm hne
  refine ⟨?_, ?_⟩ <;>
    simp_all [runOps, stepOp, handleConnect, handleJoinCall, sendMessage,
      broadcastToRoom, setAdd, alGet, alSet, isUserRole, initState, sentCount,
      isAgentAvailableFrom, isAgentAvailableAny, isUserJoinedAbout, isOpenIn]

/-- Witness for C6 on concrete connections: the waiting user `"u0"` is invited
when agent `"a0"` joins. -/
theorem C6_witness :
    sentCount (runOps [Op.connect "u0", Op.connect "a0",
        Op.joinCall "u0" "r" "user" none,
        Op.joinCall "a0" "r" "agent" none]).outbox
      "u0" (isAgentAvailableFrom "a0") = 1 ∧
    sentCount (runOps [Op.connect "u0", Op.connect "a0",
        Op.joinCall "u0" "r" "user" none,
        Op.joinCall "a0" "r" "agent" none]).outbox
      "a0" isAgentAvailableAny = 0 :=
  C6_agent_available "u0" "a0" "r" none none (by decide) (by decide)

/-- Claim C6 counterexample: the responder `"u1"` joins room `"r"` while the
initiator `"a1"` is already present, yet the joining responder receives no
invite at all (the code only fires the invite when the agent side joins). -/
theorem C6_counterexample :
    sentCount (runOps [Op.connect "u1", Op.connect "a1",
        Op.joinCall "a1" "r" "agent" none,
        Op.joinCall "u1" "r" "user" none]).outbox
      "u1" isAgentAvailableAny = 0 := by
  rfl

end FireLink
